import Mathlib

set_option maxRecDepth 8000

/-!
Verification development for `gocd_get_test_failures.py`, a command-line tool
that fetches nosetest XML artifacts from a GoCD server and formats the test
failures.  The Python source is embedded shallowly: each Python function that
the claims touch becomes a Lean definition with the same name where possible.
Machine-independent data (strings, lists, dictionaries) are modelled by the
corresponding Lean types; fallible code returns `Except`/`Option`.
-/

deriving instance DecidableEq for Except

/-- A test failure record, the dict
`{'test': ..., 'test_class': ..., 'traceback': ...}` built by `_get_failures`.
`lxml` exposes missing element text as `None`; every claim concerns elements
with textual content, so `traceback` is modelled as a `String`. -/
structure Failure where
  test : String
  test_class : String
  traceback : String
deriving DecidableEq, Repr

/-- Lexicographic (code-point) strict comparison on character lists, the order
Python uses for `str` comparison.  Defined directly on `List Char` so that it
evaluates inside the kernel. -/
def charListLt : List Char → List Char → Bool
  | [], [] => false
  | [], _ :: _ => true
  | _ :: _, [] => false
  | a :: as, b :: bs => if a < b then true else if b < a then false else charListLt as bs

/-- `testLe f g` is true when `f['test'] <= g['test']` under Python string
comparison; this is the key `itemgetter('test')` passed to `sorted`. -/
def testLe (f g : Failure) : Bool := !charListLt g.test.data f.test.data

/-- Insert a record into an already sorted list, keeping it before every later
record with an equal key (the stability contract of Python `sorted`). -/
def insertByTest (f : Failure) : List Failure → List Failure
  | [] => [f]
  | g :: gs => if testLe f g then f :: g :: gs else g :: insertByTest f gs

/-- `sorted(failures, key=itemgetter('test'))`: a stable sort by test name.
Python uses Timsort; any stable sort by the same key computes the same list,
so an insertion sort is an extensionally faithful embedding. -/
def sortByTest : List Failure → List Failure
  | [] => []
  | f :: rest => insertByTest f (sortByTest rest)

/-- A record list is sorted (ascending by test name) when every adjacent
pair is ordered by `testLe`. -/
def sortedByTest : List Failure → Bool
  | [] => true
  | [_] => true
  | f :: g :: rest => testLe f g && sortedByTest (g :: rest)

/-- `itertools.groupby(failures, itemgetter('test_class'))`, fully consumed:
maximal consecutive runs of records sharing `test_class`, each paired with the
shared key.  (A record joins the first group of the grouped tail exactly when
its class equals that group's key, which reproduces maximal runs.) -/
def groupby : List Failure → List (String × List Failure)
  | [] => []
  | f :: rest =>
    match groupby rest with
    | [] => [(f.test_class, [f])]
    | (k, g) :: gs =>
      if f.test_class = k then (k, f :: g) :: gs
      else (f.test_class, [f]) :: (k, g) :: gs

/-- Collapse consecutive duplicates of a list of keys.  This is the
specification-level description of the sequence of group keys produced by
consecutive grouping (`itertools.groupby`). -/
def collapseConsec : List String → List String
  | [] => []
  | k :: rest =>
    match collapseConsec rest with
    | [] => [k]
    | k2 :: ks => if k = k2 then k2 :: ks else k :: k2 :: ks

/-! ## JSON serialization (`json.dumps(failures, sort_keys=True, indent=2)`) -/

/-- Lowercase hexadecimal digit, as produced by Python's `'\u%04x'`
formatting in `json.dumps`. -/
def hexDigit (d : Nat) : Char :=
  if d < 10 then Char.ofNat (48 + d) else Char.ofNat (87 + d)

/-- The four hex digits of `n < 0x10000`, most significant first. -/
def toHex4 (n : Nat) : List Char :=
  [hexDigit (n / 4096 % 16), hexDigit (n / 256 % 16), hexDigit (n / 16 % 16), hexDigit (n % 16)]

/-- The escape of one character under `json.dumps` with its default
`ensure_ascii=True`: the two-character shortcuts for the usual control
characters, backslash and quote; `\uXXXX` for every other character
outside printable ASCII; and a UTF-16 surrogate pair for characters beyond
the basic multilingual plane. -/
def jsonEscapeChar (c : Char) : List Char :=
  if c = '"' then ['\\', '"']
  else if c = '\\' then ['\\', '\\']
  else if c = '\n' then ['\\', 'n']
  else if c = '\r' then ['\\', 'r']
  else if c = '\t' then ['\\', 't']
  else if c.toNat = 8 then ['\\', 'b']
  else if c.toNat = 12 then ['\\', 'f']
  else if c.toNat < 32 then '\\' :: 'u' :: toHex4 c.toNat
  else if c.toNat ≤ 126 then [c]
  else if c.toNat < 65536 then '\\' :: 'u' :: toHex4 c.toNat
  else
    '\\' :: 'u' :: toHex4 (55296 + (c.toNat - 65536) / 1024) ++
      ('\\' :: 'u' :: toHex4 (56320 + (c.toNat - 65536) % 1024))

/-- Escape a whole string for inclusion in a JSON string literal. -/
def escapeChars (cs : List Char) : List Char := cs.flatMap jsonEscapeChar

/-- A JSON string literal (quotes included) for `s`. -/
def jsonStr (s : String) : String := "\"" ++ String.mk (escapeChars s.data) ++ "\""

/-- Literal emitted before the `test` value of a record (`sort_keys=True`
orders the keys `test < test_class < traceback` lexicographically;
`indent=2` puts list items at indent 2 and keys at indent 4). -/
def jsonLit1 : List Char := "\x7b\n    \"test\": \"".data

/-- Literal between the `test` value and the `test_class` value. -/
def jsonLit2 : List Char := ",\n    \"test_class\": \"".data

/-- Literal between the `test_class` value and the `traceback` value. -/
def jsonLit3 : List Char := ",\n    \"traceback\": \"".data

/-- Literal closing a record object at list indent. -/
def jsonLit4 : List Char := "\n  \x7d".data

/-- One record object as `json.dumps` renders it inside the indented list. -/
def dumpFailureChars (f : Failure) : List Char :=
  jsonLit1 ++ (escapeChars f.test.data ++ ('"' ::
    (jsonLit2 ++ (escapeChars f.test_class.data ++ ('"' ::
      (jsonLit3 ++ (escapeChars f.traceback.data ++ ('"' :: jsonLit4))))))))

/-- The remainder of the rendered list after its first record: a `",\n  "`
separator before each further record, then the closing `"\n]"`. -/
def dumpTailChars : List Failure → List Char
  | [] => "\n]".data
  | g :: gs => ",\n  ".data ++ (dumpFailureChars g ++ dumpTailChars gs)

/-- `json.dumps(failures, sort_keys=True, indent=2)` for a record list
(which `format_test_failures` has already sorted). -/
def dumpFailuresChars : List Failure → List Char
  | [] => "[]".data
  | f :: fs => "[\n  ".data ++ (dumpFailureChars f ++ dumpTailChars fs)

/-! ## The formatter (`format_test_failures`) -/

/-- Python `str.strip()`: drop leading and trailing whitespace.  (Python
strips the Unicode whitespace set; over the ASCII whitespace characters this
coincides with `Char.isWhitespace`.) -/
def pyStrip (s : String) : String :=
  String.mk (((s.data.dropWhile Char.isWhitespace).reverse.dropWhile Char.isWhitespace).reverse)

/-- The lines of the markdown rendering: an `###` heading per group, and per
failure an `####` heading plus a fenced code block around the stripped
traceback. -/
def mdLines (groups : List (String × List Failure)) : String :=
  String.intercalate "\n"
    (groups.flatMap (fun g =>
      ("### " ++ g.1) ::
        g.2.flatMap (fun f =>
          ["#### " ++ f.test, "```\n" ++ pyStrip f.traceback ++ "\n```"])))

/-- The lines of the org rendering: `*` heading per group, `**` per failure,
then the raw (unstripped) traceback. -/
def orgLines (groups : List (String × List Failure)) : String :=
  String.intercalate "\n"
    (groups.flatMap (fun g =>
      ("* " ++ g.1) :: g.2.flatMap (fun f => ["** " ++ f.test, f.traceback])))

/-- The body of `format_test_failures` after the `failures = sorted(...)`
line: dispatch on the requested format.  The `markdown.markdown(...)` library
call of the html branch is an external library, passed in as `md2html`; the
html branch of the source calls `format_test_failures(failures, 'md')` on the
already-sorted list, which is inlined here as
`mdLines (groupby (sortByTest failures))`. -/
def formatSorted (md2html : String → String) (failures : List Failure)
    (output_format : String) : Except String String :=
  let by_test_class := groupby failures
  if output_format = "json" then .ok (String.mk (dumpFailuresChars failures))
  else if output_format = "md" ∨ output_format = "markdown" then .ok (mdLines by_test_class)
  else if output_format = "org" then .ok (orgLines by_test_class)
  else if output_format = "html" then .ok (md2html (mdLines (groupby (sortByTest failures))))
  else .error ("ValueError: Invalid output format: " ++ output_format)

/-- `format_test_failures(failures, output_format)`: rebind `failures` to a
sorted copy, then render. -/
def format_test_failures (md2html : String → String) (failures : List Failure)
    (output_format : String) : Except String String :=
  formatSorted md2html (sortByTest failures) output_format

/-! ## Pipeline registry and resolution (`PIPELINES`, `_get_pipeline_data`) -/

/-- A pipeline descriptor `{'stage': ..., 'job': ...}`. -/
structure StageJob where
  stage : String
  job : String
deriving DecidableEq, Repr

/-- The static pipeline registry.  In the source it is the literal `{}`. -/
def PIPELINES : List (String × StageJob) := []

/-- Insert one registry entry into a key-sorted list (for `sort_keys=True`). -/
def insertByKey (p : String × StageJob) :
    List (String × StageJob) → List (String × StageJob)
  | [] => [p]
  | q :: qs => if !charListLt q.1.data p.1.data then p :: q :: qs else q :: insertByKey p qs

/-- Sort registry entries by pipeline name. -/
def sortByKey : List (String × StageJob) → List (String × StageJob)
  | [] => []
  | p :: ps => insertByKey p (sortByKey ps)

/-- One pipeline descriptor as `json.dumps(..., sort_keys=True, indent=2)`
renders it nested at depth 1 (keys sorted: `job < stage`). -/
def dumpStageJob (sj : StageJob) : String :=
  "\x7b\n    \"job\": " ++ jsonStr sj.job ++ ",\n    \"stage\": " ++ jsonStr sj.stage ++ "\n  \x7d"

/-- `json.dumps(PIPELINES, sort_keys=True, indent=2)`: the `--show-pipelines`
output.  An empty dict renders as `"\x7b\x7d"`. -/
def dumpRegistry (ps : List (String × StageJob)) : String :=
  match sortByKey ps with
  | [] => "\x7b\x7d"
  | q :: qs =>
    "\x7b\n  " ++
      String.intercalate ",\n  "
        ((q :: qs).map (fun p => jsonStr p.1 ++ ": " ++ dumpStageJob p.2)) ++
      "\n\x7d"

/-- The two failure modes of `_get_pipeline_data`: the `assert match` failure
(`AssertionError: Unsupported pipeline`) and the `ValueError` raised when the
pipeline is unknown and the stage/job overrides are not both supplied. -/
inductive ResolveError where
  | assertUnsupported
  | valueUnsupported
deriving DecidableEq, Repr

/-- Python truthiness of `ARGUMENTS['--stage']` and friends: `None` and the
empty string are falsy (`all(pipeline.values())`). -/
def truthy : Option String → Bool
  | none => false
  | some s => !s.isEmpty

/-- The code points Python 3 string regexes match with `\d`: the Unicode
decimal digits (general category Nd), as closed code-point ranges.  Extracted
from the `re` module (Python 3.11). -/
def pyDigitRanges : List (Nat × Nat) :=
  [(48, 57), (1632, 1641), (1776, 1785), (1984, 1993), (2406, 2415),
   (2534, 2543), (2662, 2671), (2790, 2799), (2918, 2927), (3046, 3055),
   (3174, 3183), (3302, 3311), (3430, 3439), (3558, 3567), (3664, 3673),
   (3792, 3801), (3872, 3881), (4160, 4169), (4240, 4249), (6112, 6121),
   (6160, 6169), (6470, 6479), (6608, 6617), (6784, 6793), (6800, 6809),
   (6992, 7001), (7088, 7097), (7232, 7241), (7248, 7257), (42528, 42537),
   (43216, 43225), (43264, 43273), (43472, 43481), (43504, 43513),
   (43600, 43609), (44016, 44025), (65296, 65305), (66720, 66729),
   (68912, 68921), (69734, 69743), (69872, 69881), (69942, 69951),
   (70096, 70105), (70384, 70393), (70736, 70745), (70864, 70873),
   (71248, 71257), (71360, 71369), (71472, 71481), (71904, 71913),
   (72016, 72025), (72784, 72793), (73040, 73049), (73120, 73129),
   (92768, 92777), (92864, 92873), (93008, 93017), (120782, 120831),
   (123200, 123209), (123632, 123641), (125264, 125273), (130032, 130041)]

/-- Membership in the `\d` character class of Python 3 string regexes. -/
def isPyDigit (c : Char) : Bool :=
  pyDigitRanges.any (fun r => r.1 ≤ c.toNat ∧ c.toNat ≤ r.2)

/-- `re.match('(.+)-\d+', build)`: the regex is anchored at the start only,
`.` matches any character except a newline, and `\d` matches the Unicode
decimal digits.  The match succeeds exactly when the string has a hyphen at
some index `i ≥ 1` immediately followed by a decimal digit, with no newline
before the hyphen; and the greedy `(.+)` makes the captured group the prefix
before the last such hyphen.  The recursion walks the string while the head
is not a newline; it prefers a cut found in the tail (a later cut) and
otherwise accepts a cut right after the head character.  `cutHere c rest` is
the base case: it accepts when `rest` starts with a hyphen followed by a
decimal digit, capturing `[c]`. -/
def cutHere (c : Char) : List Char → Option (List Char)
  | '-' :: d :: _ => if isPyDigit d then some [c] else none
  | _ => none

/-- See the preceding comment: a newline head fails the whole match (the
group `(.+)` cannot contain one), and the recursion prefers a cut found in
the tail (`Option.or` keeps the left operand when it matched). -/
def reMatchGroup : List Char → Option (List Char)
  | [] => none
  | c :: rest =>
    if c = '\n' then none
    else Option.or ((reMatchGroup rest).map (fun p => c :: p)) (cutHere c rest)

/-- The shape `<name>-<digits>` described by the specification: a nonempty
name, a hyphen, then a nonempty run of decimal digits ending the string.
(A specification-side definition, used to compare the claimed behaviour with
the source's unanchored regex; digits are the regex digit class.) -/
def specShapeNameDashDigits (cs : List Char) : Bool :=
  let rev := cs.reverse
  let digits := rev.takeWhile isPyDigit
  let rest := rev.dropWhile isPyDigit
  !digits.isEmpty &&
    (match rest with
     | '-' :: name => !name.isEmpty
     | _ => false)

/-- `_get_pipeline_data(build)`: regex-extract the pipeline name (the assert
raises on failure), look it up in `PIPELINES`, and on `KeyError` fall back to
the `--stage`/`--job` overrides, requiring both to be truthy. -/
def _get_pipeline_data (build : String) (stageOpt jobOpt : Option String) :
    Except ResolveError StageJob :=
  match reMatchGroup build.data with
  | none => .error .assertUnsupported
  | some p =>
    match PIPELINES.lookup (String.mk p) with
    | some sj => .ok sj
    | none =>
      if truthy stageOpt && truthy jobOpt then
        .ok { stage := (stageOpt.getD ""), job := (jobOpt.getD "") }
      else .error .valueUnsupported

/-! ## `main` -/

/-- The docopt argument record relevant to the claims. -/
structure Args where
  show_pipelines : Bool
  format : String
  build : String
  stage : Option String
  job : Option String

/-- The `GOCD_USER`/`GOCD_PASSWORD` environment. -/
structure Env where
  user : Option String
  password : Option String

/-- Observable outcome of one invocation: `exitedZero` is `sys.exit(0)` after
printing its argument; `helpExited` is the `usage()` path (docopt prints the
help text and exits); `printed` is a normal run printing its result;
`raised` is an uncaught exception, which terminates the process with a
non-zero exit status and no result on stdout. -/
inductive MainOutcome where
  | exitedZero (stdout : String)
  | helpExited
  | printed (stdout : String)
  | raised (msg : String)
deriving DecidableEq, Repr

/-- The error escaping `main` for an invalid `--format`: the `raise
ValueError(... % arguments['--format'])` line misspells `ARGUMENTS` as
`arguments`, so evaluating the message raises `NameError` - still an uncaught
fatal exception raised before any fetch. -/
def nameErrorMsg : String := "NameError: name arguments is not defined"

/-- `main()`, parameterized by the parsed arguments, the environment, the
markdown library, and the result the network fetch would produce (`main`
only reaches the fetch after its validation steps; an unreached
`fetchResult` shows the fetch is not issued).  Named `main_py` because a
root-level `main` in Lean is reserved for the IO entry point. -/
def main_py (args : Args) (env : Env) (md2html : String → String)
    (fetchResult : Except String (List Failure)) : MainOutcome :=
  if args.show_pipelines then .exitedZero (dumpRegistry PIPELINES)
  else if args.format ∉ ["html", "json", "markdown", "md", "org"] then .raised nameErrorMsg
  else if !(truthy env.user && truthy env.password) then .helpExited
  else
    match fetchResult with
    | .error e => .raised e
    | .ok failures =>
      match format_test_failures md2html failures args.format with
      | .ok out => .printed out
      | .error e => .raised e

/-! ## The artifact fetcher (`_get_all_nosetest_xmls`)

The source fetches run indices in chunks of 30 (`toolz.partition_all(30,
itertools.count(1))`), running each chunk's `get_xml` tasks to completion
with `ioloop.run_until_complete(asyncio.wait([...]))` and moving to the next
chunk only when no 404 has been seen.  `asyncio.wait` (with its default
`return_when=ALL_COMPLETED`) returns the done tasks without re-raising their
stored exceptions, so an exception inside `get_xml` - the `assert run > 1`
for a 404 at run 1, or `raise_for_status` for another error status - is
recorded in the task and never propagates; the surrounding loop continues.
The model below executes the tasks of a chunk in run order (the canonical
schedule; the set of per-task effects does not depend on completion order)
and records swallowed task exceptions in `taskErrors`. -/

/-- Status of one mocked HTTP response. -/
inductive HttpResponse where
  | success (body : String)
  | notFound
  | otherError (status : Nat)
deriving DecidableEq, Repr

/-- The mutable state shared by the fetch tasks: the collected XML bodies,
the `seen_404` flag, the run indices for which a request was issued, and the
exceptions raised inside tasks (stored by `asyncio.wait`, never re-raised). -/
structure FetchState where
  xmls : List String
  seen404 : Bool
  requested : List Nat
  taskErrors : List String
deriving DecidableEq, Repr

/-- Message of the failed `assert run > 1` for a 404 on the first run. -/
def assertMsg : String := "AssertionError: Unexpected 404"

/-- One `get_xml(run)` task: issue the request; on 404 either fail the
assertion (run 1) or set `seen_404`; on success append the body; on any
other status `raise_for_status` raises inside the task. -/
def get_xml (responses : Nat → HttpResponse) (run : Nat) (st : FetchState) : FetchState :=
  let st1 := { st with requested := st.requested ++ [run] }
  match responses run with
  | .success body => { st1 with xmls := st1.xmls ++ [body] }
  | .notFound =>
    if 1 < run then { st1 with seen404 := true }
    else { st1 with taskErrors := st1.taskErrors ++ [assertMsg] }
  | .otherError status => { st1 with taskErrors := st1.taskErrors ++ ["HTTPError: status " ++ toString status] }

/-- Run every task of one chunk to completion (`asyncio.wait` waits for all
of them, even after a 404 or an exception inside the chunk). -/
def runChunk (responses : Nat → HttpResponse) (runs : List Nat) (st : FetchState) : FetchState :=
  runs.foldl (fun s r => get_xml responses r s) st

/-- The `k`-th chunk of run indices: `30*k+1 .. 30*k+30`. -/
def chunkRuns (k : Nat) : List Nat := List.range' (30 * k + 1) 30

/-- The chunk loop: run a chunk, stop when `seen_404` is set, otherwise move
to the next chunk.  `fuel` bounds the number of chunks; the Python loop over
`itertools.count(1)` runs forever when no 404 ever arrives, which the model
renders as `none` when the fuel is exhausted. -/
def fetchChunks (responses : Nat → HttpResponse) : Nat → Nat → FetchState → Option FetchState
  | 0, _, _ => none
  | fuel + 1, k, st =>
    let st1 := runChunk responses (chunkRuns k) st
    if st1.seen404 then some st1 else fetchChunks responses fuel (k + 1) st1

/-- `_get_all_nosetest_xmls(build)` with the HTTP layer mocked by
`responses`: collect XML bodies chunk by chunk until a 404 is seen. -/
def _get_all_nosetest_xmls (responses : Nat → HttpResponse) (fuel : Nat) : Option FetchState :=
  fetchChunks responses fuel 0 { xmls := [], seen404 := false, requested := [], taskErrors := [] }

/-- Mock responses: success for runs 1 and 2, not-found for run 3, success
again for run 4, not-found beyond.  Runs 1 and 2 succeed and run 3 is
not-found, so this sequence is in the scope of claim C1. -/
def respC1 (r : Nat) : HttpResponse :=
  if r = 1 then .success "x1"
  else if r = 2 then .success "x2"
  else if r = 4 then .success "x4"
  else .notFound

/-- Mock responses: not-found for every run, in particular for run 1. -/
def resp404 : Nat → HttpResponse := fun _ => .notFound

/-- Mock responses: success for runs 1 and 2, not-found beyond. -/
def respW (r : Nat) : HttpResponse :=
  if r = 1 then .success "a" else if r = 2 then .success "b" else .notFound

/-! ## The XML result parser (`_get_failures`) -/

/-- An element of the parsed XML tree as `lxml` exposes it: tag, attribute
dictionary, text content, and child elements. -/
inductive XmlElem where
  | mk (tag : String) (attrib : List (String × String)) (text : String) (children : List XmlElem)

/-- Tag name of the element. -/
def XmlElem.tag : XmlElem → String
  | .mk t _ _ _ => t

/-- Attribute dictionary of the element. -/
def XmlElem.attrib : XmlElem → List (String × String)
  | .mk _ a _ _ => a

/-- Text content of the element. -/
def XmlElem.text : XmlElem → String
  | .mk _ _ x _ => x

/-- Child elements of the element. -/
def XmlElem.children : XmlElem → List XmlElem
  | .mk _ _ _ c => c

/-- Build one failure dict for one `error` element: `testcase.attrib['name']`
and `testcase.attrib['classname']` raise `KeyError` when absent (evaluated
per emitted record, inside the generator). -/
def recordOfError (tc e : XmlElem) : Except String Failure :=
  match tc.attrib.lookup "name" with
  | none => .error "KeyError: name"
  | some n =>
    match tc.attrib.lookup "classname" with
    | none => .error "KeyError: classname"
    | some c => .ok { test := n, test_class := c, traceback := e.text }

/-- Emit the records of one test case's `error` children, in order. -/
def recordsOfErrors (tc : XmlElem) : List XmlElem → Except String (List Failure)
  | [] => .ok []
  | e :: es => do
    let f ← recordOfError tc e
    let fs ← recordsOfErrors tc es
    pure (f :: fs)

/-- Records of one test case: iterate its `error` children
(`testcase.findall('error')` returns the direct children tagged `error`). -/
def failuresOfTestcase (tc : XmlElem) : Except String (List Failure) :=
  recordsOfErrors tc (tc.children.filter (fun e => e.tag = "error"))

/-- Concatenate the records of a list of test cases. -/
def testcasesFailures : List XmlElem → Except String (List Failure)
  | [] => .ok []
  | tc :: tcs => do
    let fs ← failuresOfTestcase tc
    let rest ← testcasesFailures tcs
    pure (fs ++ rest)

/-- `_get_failures(root)`, fully consumed as `get_test_failures` consumes it:
one record per `error` element nested in each child of the root. -/
def _get_failures (root : XmlElem) : Except String (List Failure) :=
  testcasesFailures root.children

/-! ## Heap model for the frame claim (C10)

Python lists are heap objects passed by reference.  `format_test_failures`
receives a reference to the caller's list and its only list operation is
`failures = sorted(failures, ...)`, which reads the referenced list and binds
the local name to a freshly allocated sorted copy.  The heap holds the list
objects; `heapAlloc` appends a cell at a fresh address. -/

/-- A heap of Python list objects, addressed by `Nat`. -/
structure PyHeap where
  cells : List (Nat × List Failure)
  next : Nat

/-- Allocate a new list object, returning the heap and the new address. -/
def heapAlloc (h : PyHeap) (l : List Failure) : PyHeap × Nat :=
  ({ cells := h.cells ++ [(h.next, l)], next := h.next + 1 }, h.next)

/-- `format_test_failures` with the caller's list passed by reference:
`sorted(...)` reads the cell at `a` and allocates the sorted copy; the rest
of the function reads only the copy. -/
def format_test_failures_heap (md2html : String → String) (h : PyHeap) (a : Nat)
    (output_format : String) : PyHeap × Except String String :=
  let p := heapAlloc h (sortByTest ((h.cells.lookup a).getD []))
  (p.1, formatSorted md2html ((p.1.cells.lookup p.2).getD []) output_format)

/-! ## A JSON parser for the emitted documents

Modelled from the spec: the round-trip claim parses the formatter's JSON
output back with the standard JSON parser (Python `json.loads`, which is
library code, not part of this repository).  The parser below implements
JSON string syntax - including the two-character escapes, `\uXXXX`
escapes and UTF-16 surrogate pairs - restricted to the document grammar the
formatter emits (fixed whitespace, fixed key order).  On every document the
formatter produces it returns exactly what `json.loads` returns; lone
surrogates (not representable as Unicode scalar values, never emitted) are
rejected. -/

/-- Value of one hexadecimal digit (`json.loads` accepts both cases). -/
def parseHexDigit (c : Char) : Option Nat :=
  if '0' ≤ c ∧ c ≤ '9' then some (c.toNat - 48)
  else if 'a' ≤ c ∧ c ≤ 'f' then some (c.toNat - 87)
  else if 'A' ≤ c ∧ c ≤ 'F' then some (c.toNat - 55)
  else none

/-- Value of a four-digit hexadecimal escape body. -/
def hex4Val (a b c d : Char) : Option Nat :=
  match parseHexDigit a, parseHexDigit b, parseHexDigit c, parseHexDigit d with
  | some w, some x, some y, some z => some (((w * 16 + x) * 16 + y) * 16 + z)
  | _, _, _, _ => none

/-- After a `\uXXXX` escape whose value `n` lies in the high-surrogate
range, the input must continue with a low-surrogate escape `\uXXXX`; the
pair decodes to the scalar value it encodes in UTF-16. -/
def parseLowSurrogate (n : Nat) : List Char → Option (Char × List Char)
  | '\\' :: 'u' :: g1 :: g2 :: g3 :: g4 :: r3 =>
    (hex4Val g1 g2 g3 g4).bind fun m =>
      if 56320 ≤ m ∧ m ≤ 57343 then
        some (Char.ofNat (65536 + (n - 55296) * 1024 + (m - 56320)), r3)
      else none
  | _ => none

/-- Decode one escape sequence (the characters after a backslash), returning
the decoded character and the remaining input: the two-character shortcuts,
and `\uXXXX` escapes where a value in the high-surrogate range must be
followed by a low-surrogate escape, the pair decoding to one scalar value.
Lone surrogates are rejected (they are not Unicode scalar values and the
serializer never emits them unpaired). -/
def parseEsc : List Char → Option (Char × List Char)
  | [] => none
  | e :: r =>
    if e = '"' then some ('"', r)
    else if e = '\\' then some ('\\', r)
    else if e = '/' then some ('/', r)
    else if e = 'n' then some ('\n', r)
    else if e = 'r' then some ('\r', r)
    else if e = 't' then some ('\t', r)
    else if e = 'b' then some (Char.ofNat 8, r)
    else if e = 'f' then some (Char.ofNat 12, r)
    else if e = 'u' then
      match r with
      | h1 :: h2 :: h3 :: h4 :: r2 =>
        (hex4Val h1 h2 h3 h4).bind fun n =>
          if n < 55296 ∨ 57343 < n then some (Char.ofNat n, r2)
          else if n ≤ 56319 then parseLowSurrogate n r2
          else none
      | _ => none
    else none

/-- Parse the body of a JSON string after its opening quote, returning the
decoded characters and the input remaining after the closing quote.  Raw
control characters are rejected (`json.loads` is strict by default).  `fuel`
bounds the recursion; since every step consumes at least one input
character, `input.length + 1` always suffices. -/
def parseStringBodyF : Nat → List Char → Option (List Char × List Char)
  | 0, _ => none
  | fuel + 1, input =>
    match input with
    | [] => none
    | c :: rest =>
      if c = '"' then some ([], rest)
      else if c = '\\' then
        (parseEsc rest).bind fun er =>
          (parseStringBodyF fuel er.2).map fun p => (er.1 :: p.1, p.2)
      else if c.toNat < 32 then none
      else (parseStringBodyF fuel rest).map fun p => (c :: p.1, p.2)

/-- The JSON string-body parser with its sufficient fuel. -/
def parseStringBody (input : List Char) : Option (List Char × List Char) :=
  parseStringBodyF (input.length + 1) input

/-- Consume an expected literal prefix, returning the remainder. -/
def stripLit : List Char → List Char → Option (List Char)
  | [], input => some input
  | _ :: _, [] => none
  | l :: ls, c :: cs => if c = l then stripLit ls cs else none

/-- Parse one record object of the emitted grammar, returning the record and
the remaining input. -/
def parseFailureObj (input : List Char) : Option (Failure × List Char) :=
  (stripLit jsonLit1 input).bind fun r1 =>
  (parseStringBody r1).bind fun pt =>
  (stripLit jsonLit2 pt.2).bind fun r3 =>
  (parseStringBody r3).bind fun pc =>
  (stripLit jsonLit3 pc.2).bind fun r5 =>
  (parseStringBody r5).bind fun pb =>
  (stripLit jsonLit4 pb.2).map fun r7 =>
  ({ test := String.mk pt.1, test_class := String.mk pc.1,
     traceback := String.mk pb.1 }, r7)

/-- Parse the rest of the record list after one record: either the closing
`"\n]"` ending the document, or a separator and a further record.  `fuel`
bounds the number of records (any bound above the record count suffices). -/
def parseTail : Nat → List Char → Option (List Failure)
  | 0, _ => none
  | fuel + 1, input =>
    if input = "\n]".data then some []
    else
      (stripLit ",\n  ".data input).bind fun r =>
      (parseFailureObj r).bind fun fr =>
      (parseTail fuel fr.2).map fun fs => fr.1 :: fs

/-- `json.loads` restricted to the emitted document grammar: the whole input
must be either the empty list or an indented record list. -/
def json_loads_failures (s : String) : Option (List Failure) :=
  if s.data = "[]".data then some []
  else
    (stripLit "[\n  ".data s.data).bind fun r =>
    (parseFailureObj r).bind fun fr =>
    (parseTail (fr.2.length + 1) fr.2).map fun fs => fr.1 :: fs

/-! ## Concrete inputs used by the concrete-output claims -/

/-- Interleaved classes: after the sort by test name the class sequence is
`X, Y, X`. -/
def C4records : List Failure :=
  [{ test := "b", test_class := "Y", traceback := "tb" },
   { test := "a", test_class := "X", traceback := "ta" },
   { test := "c", test_class := "X", traceback := "tc" }]

/-- The record pair from the specification's formatting test. -/
def C7records : List Failure :=
  [{ test := "b", test_class := "X", traceback := "t1" },
   { test := "a", test_class := "Y", traceback := "t2" }]

/-- A concrete `error` element with text `tb1`. -/
def errElem1 : XmlElem := .mk "error" [] "tb1" []

/-- A concrete `error` element with text `tb2`. -/
def errElem2 : XmlElem := .mk "error" [] "tb2" []

/-- A test case carrying `name`/`classname` and the two error elements. -/
def tcW : XmlElem := .mk "testcase" [("name", "test_one"), ("classname", "SuiteA")] "" [errElem1, errElem2]

/-- A document whose root holds the single test case. -/
def rootW : XmlElem := .mk "testsuite" [] "" [tcW]

/-- A concrete failure record for the frame-claim witness. -/
def fW : Failure := { test := "t", test_class := "C", traceback := "tb" }

/-! # Theorems -/

/-! ## Order lemmas for the sort key -/

theorem charListLt_asymm : ∀ a b : List Char, charListLt a b = true → charListLt b a = false
  | [], [], h => by simp [charListLt] at h
  | [], _ :: _, _ => by simp [charListLt]
  | _ :: _, [], h => by simp [charListLt] at h
  | a :: as, b :: bs, h => by
    simp only [charListLt] at h ⊢
    by_cases hab : a < b
    · rw [if_neg (Char.lt_asymm hab), if_pos hab]
    · rw [if_neg hab] at h
      by_cases hba : b < a
      · rw [if_pos hba] at h
        exact absurd h (by simp)
      · rw [if_neg hba] at h
        rw [if_neg hba, if_neg hab]
        exact charListLt_asymm as bs h

theorem testLe_total (f g : Failure) : testLe f g = true ∨ testLe g f = true := by
  unfold testLe
  cases hb : charListLt g.test.data f.test.data with
  | false => left; rfl
  | true => right; rw [charListLt_asymm _ _ hb]; rfl

theorem testLe_of_not (f g : Failure) (h : ¬ testLe f g = true) : testLe g f = true :=
  (testLe_total f g).resolve_left h

/-! ## The sort is a permutation and sorts by test name -/

theorem insertByTest_perm (f : Failure) (l : List Failure) : List.Perm (insertByTest f l) (f :: l) := by
  induction l with
  | nil => exact List.Perm.refl _
  | cons g gs ih =>
    unfold insertByTest
    by_cases h : testLe f g = true
    · rw [if_pos h]
    · rw [if_neg h]
      exact (List.Perm.cons g ih).trans (List.Perm.swap f g gs)

theorem sortByTest_perm (l : List Failure) : List.Perm (sortByTest l) l := by
  induction l with
  | nil => exact List.Perm.refl _
  | cons f rest ih => exact (insertByTest_perm f (sortByTest rest)).trans (ih.cons f)

theorem insertByTest_sorted : ∀ (f : Failure) (l : List Failure),
    sortedByTest l = true → sortedByTest (insertByTest f l) = true
  | f, [], _ => by simp [insertByTest, sortedByTest]
  | f, [g], _ => by
    unfold insertByTest
    by_cases hfg : testLe f g = true
    · rw [if_pos hfg]
      simp [sortedByTest, hfg]
    · rw [if_neg hfg]
      simp [insertByTest, sortedByTest, testLe_of_not f g hfg]
  | f, g :: h2 :: t, hs => by
    have hs1 : testLe g h2 = true ∧ sortedByTest (h2 :: t) = true := by
      simpa [sortedByTest, Bool.and_eq_true] using hs
    have hrec := insertByTest_sorted f (h2 :: t) hs1.2
    unfold insertByTest
    by_cases hfg : testLe f g = true
    · rw [if_pos hfg]
      simp [sortedByTest, hfg, hs1.1]
      simpa [sortedByTest, Bool.and_eq_true] using hs1.2
    · rw [if_neg hfg]
      unfold insertByTest at hrec ⊢
      by_cases hfh : testLe f h2 = true
      · rw [if_pos hfh] at hrec ⊢
        simp [sortedByTest, testLe_of_not f g hfg, hfh]
        simpa [sortedByTest, Bool.and_eq_true] using hs1.2
      · rw [if_neg hfh] at hrec ⊢
        simpa [sortedByTest, Bool.and_eq_true, hs1.1] using hrec

theorem sortByTest_sorted (l : List Failure) : sortedByTest (sortByTest l) = true := by
  induction l with
  | nil => rfl
  | cons f rest ih => exact insertByTest_sorted f (sortByTest rest) ih

/-! ## Consecutive grouping lemmas -/

theorem groupby_eq_nil_iff (l : List Failure) : groupby l = [] ↔ l = [] := by
  cases l with
  | nil => simp [groupby]
  | cons f rest =>
    simp only [groupby]
    cases hg : groupby rest with
    | nil => simp
    | cons p gs =>
      cases p with
      | mk k g => by_cases h : f.test_class = k <;> simp [h]

theorem groupby_keys (l : List Failure) :
    (groupby l).map Prod.fst = collapseConsec (l.map Failure.test_class) := by
  induction l with
  | nil => rfl
  | cons f rest ih =>
    simp only [groupby, List.map_cons, collapseConsec]
    cases hg : groupby rest with
    | nil =>
      have hr : rest = [] := (groupby_eq_nil_iff rest).mp hg
      subst hr
      simp [collapseConsec]
    | cons p gs =>
      cases p with
      | mk k g =>
        rw [hg] at ih
        simp only [List.map_cons] at ih
        rw [← ih]
        by_cases h : f.test_class = k <;> simp [h]

theorem groupby_flatten (l : List Failure) :
    (groupby l).flatMap Prod.snd = l := by
  induction l with
  | nil => rfl
  | cons f rest ih =>
    simp only [groupby]
    cases hg : groupby rest with
    | nil =>
      have hr : rest = [] := (groupby_eq_nil_iff rest).mp hg
      subst hr
      simp
    | cons p gs =>
      cases p with
      | mk k g =>
        rw [hg] at ih
        simp only [List.flatMap_cons] at ih
        by_cases h : f.test_class = k <;>
          simp [h, List.flatMap_cons, ← List.append_assoc, ih]

/-! ## Fetcher lemmas -/

theorem get_xml_notFound_late (resp : Nat → HttpResponse) (r : Nat) (st : FetchState)
    (h2 : 2 ≤ r) (h404 : resp r = .notFound) :
    get_xml resp r st = { st with seen404 := true, requested := st.requested ++ [r] } := by
  unfold get_xml
  rw [h404]
  simp only []
  rw [if_pos (by omega : 1 < r)]

theorem runChunk_all_notFound (resp : Nat → HttpResponse) :
    ∀ (runs : List Nat) (st : FetchState), runs ≠ [] →
      (∀ r ∈ runs, 2 ≤ r ∧ resp r = .notFound) →
      runChunk resp runs st = { st with seen404 := true, requested := st.requested ++ runs }
  | [], _, hne, _ => absurd rfl hne
  | r :: rs, st, _, h => by
    have hr := h r (List.mem_cons_self r rs)
    have hst := get_xml_notFound_late resp r st hr.1 hr.2
    cases rs with
    | nil =>
      show runChunk resp [] (get_xml resp r st) = _
      rw [hst]
      rfl
    | cons r2 rs2 =>
      have ih := runChunk_all_notFound resp (r2 :: rs2) (get_xml resp r st) (by simp)
        (fun x hx => h x (List.mem_cons_of_mem r hx))
      show runChunk resp (r2 :: rs2) (get_xml resp r st) = _
      rw [ih, hst]
      simp

/-- C1 (amended): with run indices 1 and 2 returning success and every
further index of the first batch (3 through 30) returning not-found, the
fetcher returns exactly the two successful documents, issues requests for
every index of the first batch of 30 (`chunkRuns 0 = [1..30]`) and none
beyond, and stops after that batch. -/
theorem C1_batched_fetch (fuel : Nat) (resp : Nat → HttpResponse) (b1 b2 : String)
    (h1 : resp 1 = .success b1) (h2 : resp 2 = .success b2)
    (h3 : ∀ r, 3 ≤ r → r ≤ 30 → resp r = .notFound) :
    _get_all_nosetest_xmls resp (fuel + 1) =
      some { xmls := [b1, b2], seen404 := true, requested := chunkRuns 0, taskErrors := [] } := by
  have g1 : get_xml resp 1 { xmls := [], seen404 := false, requested := [], taskErrors := [] } =
      { xmls := [b1], seen404 := false, requested := [1], taskErrors := [] } := by
    unfold get_xml
    rw [h1]
    rfl
  have g2 : get_xml resp 2 { xmls := [b1], seen404 := false, requested := [1], taskErrors := [] } =
      { xmls := [b1, b2], seen404 := false, requested := [1, 2], taskErrors := [] } := by
    unfold get_xml
    rw [h2]
    rfl
  have hall : ∀ r ∈ List.range' 3 28, 2 ≤ r ∧ resp r = .notFound := by
    intro r hr
    obtain ⟨i, hi, rfl⟩ := List.mem_range'.mp hr
    exact ⟨by omega, h3 _ (by omega) (by omega)⟩
  have hrc : runChunk resp (chunkRuns 0)
      { xmls := [], seen404 := false, requested := [], taskErrors := [] } =
      { xmls := [b1, b2], seen404 := true, requested := chunkRuns 0, taskErrors := [] } := by
    have hchunk : chunkRuns 0 = 1 :: 2 :: List.range' 3 28 := by decide
    rw [hchunk]
    show runChunk resp (List.range' 3 28)
      (get_xml resp 2 (get_xml resp 1
        { xmls := [], seen404 := false, requested := [], taskErrors := [] })) = _
    rw [g1, g2, runChunk_all_notFound resp (List.range' 3 28) _ (by decide) hall]
    have happ : ([1, 2] : List Nat) ++ List.range' 3 28 = 1 :: 2 :: List.range' 3 28 := rfl
    rw [happ]
  unfold _get_all_nosetest_xmls
  unfold fetchChunks
  rw [hrc]
  rfl

/-- C1 witness: the amended theorem applied to the concrete response
sequence `respW` (success, success, then not-found). -/
theorem C1_batched_fetch_witness :
    _get_all_nosetest_xmls respW 1 =
      some { xmls := ["a", "b"], seen404 := true, requested := chunkRuns 0, taskErrors := [] } :=
  C1_batched_fetch 0 respW "a" "b" rfl rfl (fun r h3 _ => by
    unfold respW
    rw [if_neg (by omega), if_neg (by omega)])

/-- C1 counterexample: for `respC1` runs 1 and 2 succeed and run 3 is
not-found, yet the fetcher issues requests for every run index up to 30
(in particular run 4) and returns three documents, because run 4 also
succeeds inside the same batch of 30. -/
theorem C1_chunk_counterexample :
    _get_all_nosetest_xmls respC1 1 =
      some { xmls := ["x1", "x2", "x4"], seen404 := true,
             requested := List.range' 1 30, taskErrors := [] } ∧
    (["x1", "x2", "x4"] : List String).length ≠ 2 ∧ (4 : Nat) ∈ List.range' 1 30 := by
  decide

/-- C2: when every response is not-found - in particular the response for
run index 1 - the `assert run > 1` failure inside the run-1 task is recorded
but swallowed by `asyncio.wait`, and enumeration terminates normally after
the first batch with an empty document list instead of raising a fatal
error. -/
theorem C2_swallowed_assert :
    _get_all_nosetest_xmls resp404 1 =
      some { xmls := [], seen404 := true, requested := List.range' 1 30,
             taskErrors := [assertMsg] } := by
  decide

/-- C4: the formatter sorts by test name and then groups consecutively by
test class: the group keys are exactly the class sequence of the sorted list
with consecutive duplicates collapsed (so a class interleaved with another
after the sort yields repeated, non-adjacent groups), the groups concatenate
back to the sorted list, and on the concrete interleaved records `C4records`
both the org outline and the markdown output repeat the heading of class `X`
around class `Y` instead of merging the two `X` groups. -/
theorem C4_sort_then_group :
    (∀ fs : List Failure,
        (groupby (sortByTest fs)).map Prod.fst =
          collapseConsec ((sortByTest fs).map Failure.test_class) ∧
        (groupby (sortByTest fs)).flatMap Prod.snd = sortByTest fs) ∧
    format_test_failures id C4records "org" =
      .ok "* X\n** a\nta\n* Y\n** b\ntb\n* X\n** c\ntc" ∧
    format_test_failures id C4records "md" =
      .ok "### X\n#### a\n```\nta\n```\n### Y\n#### b\n```\ntb\n```\n### X\n#### c\n```\ntc\n```" :=
  ⟨fun fs => ⟨groupby_keys _, groupby_flatten _⟩, by decide, by decide⟩

/-- C7: on the records `[{b, X, t1}, {a, Y, t2}]` the JSON output lists the
record with test `a` before the record with test `b` with keys in lexical
order (`test`, `test_class`, `traceback`), and the org outline emits the
heading of class `Y` before class `X`; in general the sorted list rendered
by the formatter is ordered ascending by test name and is a permutation of
the input records. -/
theorem C7_format_outputs :
    format_test_failures id C7records "json" =
      .ok "[\n  \x7b\n    \"test\": \"a\",\n    \"test_class\": \"Y\",\n    \"traceback\": \"t2\"\n  \x7d,\n  \x7b\n    \"test\": \"b\",\n    \"test_class\": \"X\",\n    \"traceback\": \"t1\"\n  \x7d\n]" ∧
    format_test_failures id C7records "org" = .ok "* Y\n** a\nt2\n* X\n** b\nt1" ∧
    (∀ fs : List Failure,
        sortedByTest (sortByTest fs) = true ∧ List.Perm (sortByTest fs) fs) :=
  ⟨by decide, by decide, fun fs => ⟨sortByTest_sorted fs, sortByTest_perm fs⟩⟩


/-! ## Regex lemmas for pipeline resolution -/

theorem isPyDigit_ne_newline (c : Char) (h : isPyDigit c = true) : c ≠ '\n' := by
  intro he
  rw [he] at h
  exact absurd h (by decide)

theorem isPyDigit_ne_hyphen (c : Char) (h : isPyDigit c = true) : c ≠ '-' := by
  intro he
  rw [he] at h
  exact absurd h (by decide)

theorem cutHere_eq_none (c x : Char) (t : List Char) (hx : x ≠ '-') :
    cutHere c (x :: t) = none := by
  unfold cutHere
  split
  · next x2 d tl heq =>
    exfalso
    apply hx
    injection heq with h1 _
  · rfl

theorem cutHere_some_spec (c : Char) (rest p : List Char) (h : cutHere c rest = some p) :
    ∃ d b, rest = '-' :: d :: b ∧ p = [c] ∧ isPyDigit d = true := by
  unfold cutHere at h
  split at h
  · next x d tl =>
    by_cases hd : isPyDigit d = true
    · rw [if_pos hd] at h
      cases h
      exact ⟨d, tl, rfl, rfl, hd⟩
    · rw [if_neg hd] at h
      exact absurd h (by simp)
  · next => exact absurd h (by simp)

theorem cutHere_hyphen (c d : Char) (b : List Char) :
    cutHere c ('-' :: d :: b) = if isPyDigit d = true then some [c] else none := rfl

theorem reMatchGroup_all_digits : ∀ ds : List Char, (∀ c ∈ ds, isPyDigit c = true) →
    reMatchGroup ds = none
  | [], _ => rfl
  | d :: rest, h => by
    have ih := reMatchGroup_all_digits rest (fun c hc => h c (List.mem_cons_of_mem d hc))
    have hd := h d (by simp)
    unfold reMatchGroup
    rw [if_neg (isPyDigit_ne_newline d hd), ih]
    cases rest with
    | nil => rfl
    | cons x t =>
      have hx : x ≠ '-' := isPyDigit_ne_hyphen x (h x (by simp))
      rw [cutHere_eq_none d x t hx]
      rfl

theorem reMatchGroup_some_spec : ∀ (cs p : List Char), reMatchGroup cs = some p →
    ∃ d b, cs = p ++ '-' :: d :: b ∧ p ≠ [] ∧ isPyDigit d = true ∧ '\n' ∉ p
  | [], p, h => by simp [reMatchGroup] at h
  | c :: rest, p, h => by
    unfold reMatchGroup at h
    by_cases hc : c = '\n'
    · rw [if_pos hc] at h
      exact absurd h (by simp)
    rw [if_neg hc] at h
    cases hg : reMatchGroup rest with
    | some q =>
      rw [hg] at h
      obtain ⟨d, b, hcs, hq, hd, hnl⟩ := reMatchGroup_some_spec rest q hg
      have hp : p = c :: q := by
        have h2 : some (c :: q) = some p := h
        exact (Option.some.inj h2).symm
      subst hp
      refine ⟨d, b, by rw [hcs]; rfl, by simp, hd, ?_⟩
      intro hmem
      rcases List.mem_cons.mp hmem with h3 | h3
      · exact hc h3.symm
      · exact hnl h3
    | none =>
      rw [hg] at h
      have hcut : cutHere c rest = some p := h
      obtain ⟨d, b, hrest, hp, hd⟩ := cutHere_some_spec c rest p hcut
      subst hp
      refine ⟨d, b, by rw [hrest]; rfl, by simp, hd, ?_⟩
      intro hmem
      rcases List.mem_cons.mp hmem with h3 | h3
      · exact hc h3.symm
      · simp at h3

theorem reMatchGroup_isSome_of_cut : ∀ (a : List Char) (d : Char) (b : List Char),
    a ≠ [] → '\n' ∉ a → isPyDigit d = true →
    (reMatchGroup (a ++ '-' :: d :: b)).isSome = true
  | [], _, _, ha, _, _ => absurd rfl ha
  | [x], d, b, _, hnl, hd => by
    have hx : ¬ x = '\n' := by
      intro he
      exact hnl (by simp [he])
    show (reMatchGroup (x :: '-' :: d :: b)).isSome = true
    unfold reMatchGroup
    rw [if_neg hx]
    cases hg : reMatchGroup ('-' :: d :: b) with
    | some q => rfl
    | none =>
      show (Option.or (Option.map _ none) (cutHere x ('-' :: d :: b))).isSome = true
      rw [cutHere_hyphen, if_pos hd]
      rfl
  | x :: y :: a2, d, b, _, hnl, hd => by
    have hx : ¬ x = '\n' := by
      intro he
      exact hnl (by simp [he])
    have ih := reMatchGroup_isSome_of_cut (y :: a2) d b (by simp)
      (fun hm => hnl (List.mem_cons_of_mem x hm)) hd
    obtain ⟨q, hq⟩ := Option.isSome_iff_exists.mp ih
    show (reMatchGroup (x :: ((y :: a2) ++ '-' :: d :: b))).isSome = true
    unfold reMatchGroup
    rw [if_neg hx, hq]
    rfl

theorem reMatchGroup_none_iff (cs : List Char) :
    reMatchGroup cs = none ↔
      ¬ ∃ a d b, cs = a ++ '-' :: d :: b ∧ a ≠ [] ∧ isPyDigit d = true ∧ '\n' ∉ a := by
  constructor
  · intro h hex
    obtain ⟨a, d, b, hcs, ha, hd, hnl⟩ := hex
    have hs := reMatchGroup_isSome_of_cut a d b ha hnl hd
    rw [← hcs, h] at hs
    simp at hs
  · intro h
    cases hg : reMatchGroup cs with
    | none => rfl
    | some p =>
      obtain ⟨d, b, hcs, hp, hd, hnl⟩ := reMatchGroup_some_spec cs p hg
      exact absurd ⟨p, d, b, hcs, hp, hd, hnl⟩ h

theorem reMatchGroup_name_digits : ∀ (name : List Char), name ≠ [] → '\n' ∉ name →
    ∀ (digits : List Char), digits ≠ [] → (∀ c ∈ digits, isPyDigit c = true) →
    reMatchGroup (name ++ '-' :: digits) = some name
  | [], h, _, _, _, _ => absurd rfl h
  | [n], _, hnl, digits, hne, hall => by
    have hn : ¬ n = '\n' := by
      intro he
      exact hnl (by simp [he])
    have hdar : reMatchGroup ('-' :: digits) = none := by
      unfold reMatchGroup
      rw [if_neg (by decide : ¬ ('-' : Char) = '\n'),
          reMatchGroup_all_digits digits hall]
      cases digits with
      | nil => rfl
      | cons d t =>
        have hd : d ≠ '-' := isPyDigit_ne_hyphen d (hall d (by simp))
        rw [cutHere_eq_none '-' d t hd]
        rfl
    show reMatchGroup (n :: '-' :: digits) = some [n]
    unfold reMatchGroup
    rw [if_neg hn, hdar]
    cases digits with
    | nil => exact absurd rfl hne
    | cons d t =>
      show Option.or (Option.map _ none) (cutHere n ('-' :: d :: t)) = some [n]
      rw [cutHere_hyphen, if_pos (hall d (by simp))]
      rfl
  | n :: n2 :: name2, _, hnl, digits, hne, hall => by
    have hn : ¬ n = '\n' := by
      intro he
      exact hnl (by simp [he])
    have ih := reMatchGroup_name_digits (n2 :: name2) (by simp)
      (fun hm => hnl (List.mem_cons_of_mem n hm)) digits hne hall
    show reMatchGroup (n :: ((n2 :: name2) ++ '-' :: digits)) = _
    unfold reMatchGroup
    rw [if_neg hn, ih]
    rfl

/-- Faithfulness probes against CPython behaviour: `.` does not match a
newline, so `a\nb-1` fails the regex and the program hits the usage
assertion; and `\d` matches Unicode decimal digits, so `a-٣` (U+0663,
Arabic-Indic digit three) matches with captured group `a`. -/
theorem reMatchGroup_python_probes :
    reMatchGroup "a\nb-1".data = none ∧ reMatchGroup "a-٣".data = some ['a'] := by
  decide

/-- C3 (amended): pipeline resolution fails with the unsupported-pipeline
assertion exactly when the build identifier contains no hyphen that is
preceded by at least one character - none of them a newline, since `.` does
not match one - and immediately followed by a Unicode decimal digit (the
class `\d` matches; the regex `(.+)-\d+` is unanchored at the end, so
trailing non-digit text after such a hyphen-digit occurrence is accepted);
and for identifiers of the exact shape `<name>-<digits>` (newline-free name,
trailing nonempty run of decimal digits) the captured pipeline name is the
identifier with the trailing `-<digits>` stripped. -/
theorem C3_unanchored_regex :
    (∀ cs : List Char, reMatchGroup cs = none ↔
        ¬ ∃ a d b, cs = a ++ '-' :: d :: b ∧ a ≠ [] ∧ isPyDigit d = true ∧ '\n' ∉ a) ∧
    (∀ name digits : List Char, name ≠ [] → '\n' ∉ name → digits ≠ [] →
        (∀ c ∈ digits, isPyDigit c = true) →
        reMatchGroup (name ++ '-' :: digits) = some name) ∧
    (∀ (build : String) (stage job : Option String),
        _get_pipeline_data build stage job = .error .assertUnsupported ↔
          reMatchGroup build.data = none) := by
  refine ⟨reMatchGroup_none_iff,
    fun name digits h1 h2 h3 h4 => reMatchGroup_name_digits name h1 h2 digits h3 h4, ?_⟩
  intro build stage job
  unfold _get_pipeline_data
  cases hm : reMatchGroup build.data with
  | none => simp
  | some p =>
    simp only [PIPELINES, List.lookup]
    constructor
    · intro h
      exfalso
      by_cases ht : (truthy stage && truthy job) = true
      · rw [if_pos ht] at h
        exact absurd h (by simp)
      · rw [if_neg ht] at h
        exact absurd h (by simp)
    · intro h
      exact absurd h (by simp)

/-- C3 counterexample: `"a-1b"` does not have the claimed shape
`<name>-<digits>` (it ends in a letter), yet resolution does not fail with
the usage error: the unanchored regex matches with captured name `a` and,
with both overrides supplied, resolution succeeds. -/
theorem C3_shape_counterexample :
    specShapeNameDashDigits "a-1b".data = false ∧
    _get_pipeline_data "a-1b" (some "s") (some "j") = .ok { stage := "s", job := "j" } ∧
    reMatchGroup "a-1b".data = some ['a'] := by
  decide

/-- C3 witness: the amended theorem applied to the identifier `p-1`. -/
theorem C3_unanchored_regex_witness :
    reMatchGroup (['p'] ++ '-' :: ['1']) = some ['p'] :=
  C3_unanchored_regex.2.1 ['p'] ['1'] (by decide) (by decide) (by decide) (by decide)

/-- C6: for any document whose root has a single test-case child carrying
`name` and `classname` attributes and exactly two `error` child elements,
the parser yields exactly two records sharing `test` and `test_class`, each
carrying one error element's text as its traceback. -/
theorem C6_two_error_records (root tc e1 e2 : XmlElem) (n c : String)
    (hch : root.children = [tc])
    (hn : tc.attrib.lookup "name" = some n)
    (hc : tc.attrib.lookup "classname" = some c)
    (herr : tc.children.filter (fun e => e.tag = "error") = [e1, e2]) :
    _get_failures root =
      .ok [{ test := n, test_class := c, traceback := e1.text },
           { test := n, test_class := c, traceback := e2.text }] := by
  unfold _get_failures
  rw [hch]
  show (do
    let fs ← failuresOfTestcase tc
    let rest ← testcasesFailures []
    pure (fs ++ rest) : Except String (List Failure)) = _
  unfold failuresOfTestcase
  rw [herr]
  simp only [recordsOfErrors, recordOfError, hn, hc, testcasesFailures]
  rfl

/-- C6 witness: the theorem applied to a concrete document with one test
case and two error elements. -/
theorem C6_two_error_records_witness :
    _get_failures rootW =
      .ok [{ test := "test_one", test_class := "SuiteA", traceback := "tb1" },
           { test := "test_one", test_class := "SuiteA", traceback := "tb2" }] :=
  C6_two_error_records rootW tcW errElem1 errElem2 "test_one" "SuiteA" rfl rfl rfl rfl

/-- C8: for any invocation without `--show-pipelines` whose requested format
is not one of html, json, markdown, md, org, `main` raises before the
credential check and before any fetch - whatever the fetch would have
returned - printing nothing; the uncaught exception terminates the process
with a non-zero exit status.  (The raised error is the `NameError` produced
while formatting the intended `ValueError` message, an error either way.) -/
theorem C8_invalid_format_fatal (args : Args) (env : Env) (md2html : String → String)
    (fetchResult : Except String (List Failure))
    (hfmt : args.format ∉ ["html", "json", "markdown", "md", "org"])
    (hsp : args.show_pipelines = false) :
    main_py args env md2html fetchResult = .raised nameErrorMsg := by
  unfold main_py
  rw [hsp]
  simp [hfmt]

/-- C8 witness: a concrete invocation with format `xml`. -/
theorem C8_invalid_format_fatal_witness :
    main_py { show_pipelines := false, format := "xml", build := "p-1", stage := none, job := none }
      { user := some "u", password := some "pw" } id (.ok []) = .raised nameErrorMsg :=
  C8_invalid_format_fatal _ _ _ _ (by decide) rfl

/-- C9: the registry is empty: `--show-pipelines` prints the empty JSON
object whatever the environment and network would do, the registry lookup
never succeeds for any pipeline name, and resolution succeeds only when
both the `--stage` and `--job` overrides are supplied. -/
theorem C9_empty_registry :
    (∀ (args : Args) (env : Env) (md2html : String → String)
        (fetchResult : Except String (List Failure)), args.show_pipelines = true →
        main_py args env md2html fetchResult = .exitedZero "\x7b\x7d") ∧
    (∀ p : String, PIPELINES.lookup p = none) ∧
    (∀ (build : String) (stage job : Option String) (sj : StageJob),
        _get_pipeline_data build stage job = .ok sj → stage.isSome ∧ job.isSome) := by
  refine ⟨?_, fun p => rfl, ?_⟩
  · intro args env m f h
    unfold main_py
    rw [h]
    rfl
  · intro build stage job sj h
    unfold _get_pipeline_data at h
    cases hm : reMatchGroup build.data with
    | none =>
      rw [hm] at h
      exact absurd h (by simp)
    | some p =>
      rw [hm] at h
      simp only [PIPELINES, List.lookup] at h
      by_cases ht : (truthy stage && truthy job) = true
      · have hts : truthy stage = true := (Bool.and_eq_true _ _ |>.mp ht).1
        have htj : truthy job = true := (Bool.and_eq_true _ _ |>.mp ht).2
        constructor
        · cases stage with
          | none => exact absurd hts (by simp [truthy])
          | some s => rfl
        · cases job with
          | none => exact absurd htj (by simp [truthy])
          | some s => rfl
      · rw [if_neg ht] at h
        exact absurd h (by simp)

/-- C9 witness: `--show-pipelines` on a concrete invocation prints the empty
object, and a concrete resolution success has both overrides supplied. -/
theorem C9_empty_registry_witness :
    main_py { show_pipelines := true, format := "html", build := "b", stage := none, job := none }
      { user := none, password := none } id (.ok []) = .exitedZero "\x7b\x7d" ∧
    ((some "s" : Option String).isSome ∧ (some "j" : Option String).isSome) :=
  ⟨C9_empty_registry.1 _ _ _ _ rfl,
   C9_empty_registry.2.2 "a-1" (some "s") (some "j") { stage := "s", job := "j" } rfl⟩

/-! ## Heap lemma for the frame claim -/

theorem lookup_after_alloc (cells : List (Nat × List Failure)) (nx : Nat)
    (nl l : List Failure) (a : Nat) (h : cells.lookup a = some l) :
    (cells ++ [(nx, nl)]).lookup a = some l := by
  induction cells with
  | nil => simp [List.lookup] at h
  | cons p ps ih =>
    cases p with
    | mk k v =>
      simp only [List.lookup, List.cons_append] at h ⊢
      cases hk : (a == k) with
      | true => rw [hk] at h; exact h
      | false => rw [hk] at h; exact ih h

/-- C10: formatting does not mutate the caller's record list: whatever cell
the caller's reference designates holds the same records in the same order
after `format_test_failures` returns, for every output format (the sort is
performed on a freshly allocated copy). -/
theorem C10_formatter_no_mutation (md2html : String → String) (h : PyHeap) (a : Nat)
    (output_format : String) (l : List Failure) (hl : h.cells.lookup a = some l) :
    ((format_test_failures_heap md2html h a output_format).1).cells.lookup a = some l := by
  unfold format_test_failures_heap heapAlloc
  exact lookup_after_alloc h.cells h.next _ l a hl

/-- C10 witness: a concrete one-cell heap is unchanged at the caller's
address after formatting. -/
theorem C10_formatter_no_mutation_witness :
    ((format_test_failures_heap id { cells := [(0, [fW])], next := 1 } 0 "org").1).cells.lookup 0 =
      some [fW] :=
  C10_formatter_no_mutation id { cells := [(0, [fW])], next := 1 } 0 "org" [fW] rfl

/-! ## JSON round-trip lemmas -/

theorem parseHexDigit_hexDigit : ∀ d : Nat, d < 16 → parseHexDigit (hexDigit d) = some d := by
  decide

theorem hex4Val_toHex4 (n : Nat) (h : n < 65536) :
    hex4Val (hexDigit (n / 4096 % 16)) (hexDigit (n / 256 % 16)) (hexDigit (n / 16 % 16))
      (hexDigit (n % 16)) = some n := by
  unfold hex4Val
  rw [parseHexDigit_hexDigit _ (Nat.mod_lt _ (by omega)),
      parseHexDigit_hexDigit _ (Nat.mod_lt _ (by omega)),
      parseHexDigit_hexDigit _ (Nat.mod_lt _ (by omega)),
      parseHexDigit_hexDigit _ (Nat.mod_lt _ (by omega))]
  simp only [Option.some.injEq]
  omega

theorem char_valid (c : Char) :
    c.toNat < 55296 ∨ (57344 ≤ c.toNat ∧ c.toNat < 1114112) := c.valid

theorem parseEsc_u_step (a b c d : Char) (t : List Char) :
    parseEsc ('u' :: a :: b :: c :: d :: t) =
      (hex4Val a b c d).bind fun n =>
        if n < 55296 ∨ 57343 < n then some (Char.ofNat n, t)
        else if n ≤ 56319 then parseLowSurrogate n t
        else none := rfl

theorem parseLowSurrogate_step (n : Nat) (g1 g2 g3 g4 : Char) (t : List Char) :
    parseLowSurrogate n ('\\' :: 'u' :: g1 :: g2 :: g3 :: g4 :: t) =
      (hex4Val g1 g2 g3 g4).bind fun m =>
        if 56320 ≤ m ∧ m ≤ 57343 then
          some (Char.ofNat (65536 + (n - 55296) * 1024 + (m - 56320)), t)
        else none := rfl

theorem parseEsc_u_scalar (a b c d : Char) (n : Nat) (t : List Char)
    (hv : hex4Val a b c d = some n) (hn : n < 55296 ∨ 57343 < n) :
    parseEsc ('u' :: a :: b :: c :: d :: t) = some (Char.ofNat n, t) := by
  rw [parseEsc_u_step, hv, Option.some_bind, if_pos hn]

theorem parseEsc_u_pair (a b c d g1 g2 g3 g4 : Char) (n m : Nat) (t : List Char)
    (hv : hex4Val a b c d = some n) (hw : hex4Val g1 g2 g3 g4 = some m)
    (hn1 : 55296 ≤ n) (hn2 : n ≤ 56319) (hm : 56320 ≤ m ∧ m ≤ 57343) :
    parseEsc ('u' :: a :: b :: c :: d :: ('\\' :: 'u' :: g1 :: g2 :: g3 :: g4 :: t)) =
      some (Char.ofNat (65536 + (n - 55296) * 1024 + (m - 56320)), t) := by
  rw [parseEsc_u_step, hv, Option.some_bind, if_neg (by omega), if_pos hn2]
  rw [parseLowSurrogate_step, hw, Option.some_bind, if_pos hm]

theorem parseStringBodyF_esc (fuel : Nat) (r : List Char) :
    parseStringBodyF (fuel + 1) ('\\' :: r) =
      (parseEsc r).bind fun er =>
        (parseStringBodyF fuel er.2).map fun p => (er.1 :: p.1, p.2) := rfl

theorem parseStringBodyF_raw (fuel : Nat) (c : Char) (rest : List Char)
    (h1 : ¬ c = '"') (h2 : ¬ c = '\\') (h3 : ¬ c.toNat < 32) :
    parseStringBodyF (fuel + 1) (c :: rest) =
      (parseStringBodyF fuel rest).map fun p => (c :: p.1, p.2) := by
  show (if c = '"' then some ([], rest)
    else if c = '\\' then
      (parseEsc rest).bind fun er =>
        (parseStringBodyF fuel er.2).map fun p => (er.1 :: p.1, p.2)
    else if c.toNat < 32 then none
    else (parseStringBodyF fuel rest).map fun p => (c :: p.1, p.2)) = _
  rw [if_neg h1, if_neg h2, if_neg h3]

theorem parse_u_escape (n : Nat) (hn : n < 55296 ∨ (57344 ≤ n ∧ n < 65536)) (fuel : Nat)
    (T : List Char) :
    parseStringBodyF (fuel + 1) (('\\' :: 'u' :: toHex4 n) ++ T) =
      (parseStringBodyF fuel T).map fun p => (Char.ofNat n :: p.1, p.2) := by
  have e1 : ('\\' :: 'u' :: toHex4 n) ++ T =
      '\\' :: ('u' :: hexDigit (n / 4096 % 16) :: hexDigit (n / 256 % 16) ::
        hexDigit (n / 16 % 16) :: hexDigit (n % 16) :: T) := by
    simp [toHex4]
  rw [e1, parseStringBodyF_esc,
      parseEsc_u_scalar _ _ _ _ n T (hex4Val_toHex4 n (by omega)) (by omega),
      Option.some_bind]

theorem parse_surrogate_escape (n : Nat) (h1 : 65536 ≤ n) (h2 : n < 1114112) (fuel : Nat)
    (T : List Char) :
    parseStringBodyF (fuel + 1)
      (('\\' :: 'u' :: toHex4 (55296 + (n - 65536) / 1024) ++
        ('\\' :: 'u' :: toHex4 (56320 + (n - 65536) % 1024))) ++ T) =
      (parseStringBodyF fuel T).map fun p => (Char.ofNat n :: p.1, p.2) := by
  have e1 : (('\\' :: 'u' :: toHex4 (55296 + (n - 65536) / 1024) ++
        ('\\' :: 'u' :: toHex4 (56320 + (n - 65536) % 1024))) ++ T) =
      '\\' :: ('u' :: hexDigit ((55296 + (n - 65536) / 1024) / 4096 % 16) ::
        hexDigit ((55296 + (n - 65536) / 1024) / 256 % 16) ::
        hexDigit ((55296 + (n - 65536) / 1024) / 16 % 16) ::
        hexDigit ((55296 + (n - 65536) / 1024) % 16) ::
        ('\\' :: 'u' :: hexDigit ((56320 + (n - 65536) % 1024) / 4096 % 16) ::
          hexDigit ((56320 + (n - 65536) % 1024) / 256 % 16) ::
          hexDigit ((56320 + (n - 65536) % 1024) / 16 % 16) ::
          hexDigit ((56320 + (n - 65536) % 1024) % 16) :: T)) := by
    simp [toHex4]
  rw [e1, parseStringBodyF_esc,
      parseEsc_u_pair _ _ _ _ _ _ _ _ (55296 + (n - 65536) / 1024)
        (56320 + (n - 65536) % 1024) T
        (hex4Val_toHex4 _ (by omega)) (hex4Val_toHex4 _ (by omega))
        (by omega) (by omega) ⟨by omega, by omega⟩,
      Option.some_bind]
  have e2 : 65536 + ((55296 + (n - 65536) / 1024) - 55296) * 1024 +
      ((56320 + (n - 65536) % 1024) - 56320) = n := by omega
  rw [e2]

theorem parse_escape_charF (c : Char) (fuel : Nat) (T : List Char) :
    parseStringBodyF (fuel + 1) (jsonEscapeChar c ++ T) =
      (parseStringBodyF fuel T).map fun p => (c :: p.1, p.2) := by
  have hval := char_valid c
  unfold jsonEscapeChar
  by_cases h1 : c = '"'
  · rw [if_pos h1]; subst h1; rfl
  rw [if_neg h1]
  by_cases h2 : c = '\\'
  · rw [if_pos h2]; subst h2; rfl
  rw [if_neg h2]
  by_cases h3 : c = '\n'
  · rw [if_pos h3]; subst h3; rfl
  rw [if_neg h3]
  by_cases h4 : c = '\r'
  · rw [if_pos h4]; subst h4; rfl
  rw [if_neg h4]
  by_cases h5 : c = '\t'
  · rw [if_pos h5]; subst h5; rfl
  rw [if_neg h5]
  by_cases h6 : c.toNat = 8
  · rw [if_pos h6]
    have hc : Char.ofNat 8 = c := by rw [← h6, Char.ofNat_toNat]
    rw [show (['\\', 'b'] : List Char) ++ T = '\\' :: 'b' :: T from rfl,
        parseStringBodyF_esc,
        show parseEsc ('b' :: T) = some (Char.ofNat 8, T) from rfl,
        Option.some_bind, hc]
  rw [if_neg h6]
  by_cases h7 : c.toNat = 12
  · rw [if_pos h7]
    have hc : Char.ofNat 12 = c := by rw [← h7, Char.ofNat_toNat]
    rw [show (['\\', 'f'] : List Char) ++ T = '\\' :: 'f' :: T from rfl,
        parseStringBodyF_esc,
        show parseEsc ('f' :: T) = some (Char.ofNat 12, T) from rfl,
        Option.some_bind, hc]
  rw [if_neg h7]
  by_cases h8 : c.toNat < 32
  · rw [if_pos h8]
    have hp := parse_u_escape c.toNat (by omega) fuel T
    rw [Char.ofNat_toNat] at hp
    exact hp
  rw [if_neg h8]
  by_cases h9 : c.toNat ≤ 126
  · rw [if_pos h9]
    rw [show ([c] : List Char) ++ T = c :: T from rfl]
    exact parseStringBodyF_raw fuel c T h1 h2 h8
  rw [if_neg h9]
  by_cases h10 : c.toNat < 65536
  · rw [if_pos h10]
    have hp := parse_u_escape c.toNat (by omega) fuel T
    rw [Char.ofNat_toNat] at hp
    exact hp
  · rw [if_neg h10]
    have hp := parse_surrogate_escape c.toNat (by omega) (by omega) fuel T
    rw [Char.ofNat_toNat] at hp
    exact hp

theorem jsonEscapeChar_length (c : Char) : 1 ≤ (jsonEscapeChar c).length := by
  unfold jsonEscapeChar
  split <;> try simp [toHex4]
  split <;> try simp [toHex4]
  split <;> try simp [toHex4]
  split <;> try simp [toHex4]
  split <;> try simp [toHex4]
  split <;> try simp [toHex4]
  split <;> try simp [toHex4]
  split <;> try simp [toHex4]
  split <;> try simp [toHex4]
  split <;> simp [toHex4]

theorem escapeChars_length : ∀ s : List Char, s.length ≤ (escapeChars s).length := by
  intro s
  induction s with
  | nil => simp [escapeChars]
  | cons c s ih =>
    have h1 := jsonEscapeChar_length c
    simp only [escapeChars, List.flatMap_cons, List.length_append, List.length_cons] at ih ⊢
    omega

theorem parse_escape_stringF : ∀ (s : List Char) (fuel : Nat) (rest : List Char),
    s.length < fuel →
    parseStringBodyF fuel (escapeChars s ++ '"' :: rest) = some (s, rest)
  | [], fuel, rest, h => by
    cases fuel with
    | zero => omega
    | succ k => rfl
  | c :: s, fuel, rest, h => by
    cases fuel with
    | zero => omega
    | succ k =>
      have ih := parse_escape_stringF s k rest (by simp only [List.length_cons] at h; omega)
      have e1 : escapeChars (c :: s) ++ '"' :: rest =
          jsonEscapeChar c ++ (escapeChars s ++ '"' :: rest) := by
        simp [escapeChars]
      rw [e1, parse_escape_charF c k (escapeChars s ++ '"' :: rest), ih]
      rfl

theorem parse_escape_string (s rest : List Char) :
    parseStringBody (escapeChars s ++ '"' :: rest) = some (s, rest) := by
  unfold parseStringBody
  apply parse_escape_stringF
  have h1 := escapeChars_length s
  simp only [List.length_append, List.length_cons]
  omega

theorem stripLit_append : ∀ (p r : List Char), stripLit p (p ++ r) = some r
  | [], r => rfl
  | c :: p, r => by
    show (if c = c then stripLit p (p ++ r) else none) = some r
    rw [if_pos rfl, stripLit_append p r]

theorem parseFailureObj_dump (f : Failure) (rest : List Char) :
    parseFailureObj (dumpFailureChars f ++ rest) = some (f, rest) := by
  unfold parseFailureObj dumpFailureChars
  simp only [List.append_assoc, List.cons_append]
  rw [stripLit_append]
  simp only [Option.some_bind]
  rw [parse_escape_string]
  simp only [Option.some_bind]
  rw [stripLit_append]
  simp only [Option.some_bind]
  rw [parse_escape_string]
  simp only [Option.some_bind]
  rw [stripLit_append]
  simp only [Option.some_bind]
  rw [parse_escape_string]
  simp only [Option.some_bind]
  rw [stripLit_append]
  rfl

theorem dumpTail_length : ∀ fs : List Failure, fs.length < (dumpTailChars fs).length
  | [] => by decide
  | g :: gs => by
    have ih := dumpTail_length gs
    simp only [dumpTailChars, List.length_cons, List.length_append, List.length_nil]
    omega

theorem parseTail_dump : ∀ (fs : List Failure) (fuel : Nat), fs.length < fuel →
    parseTail fuel (dumpTailChars fs) = some fs
  | [], fuel, h => by
    cases fuel with
    | zero => omega
    | succ k =>
      show parseTail (k + 1) ("\n]".data) = some []
      unfold parseTail
      rw [if_pos rfl]
  | g :: gs, fuel, h => by
    cases fuel with
    | zero => omega
    | succ k =>
      have ih := parseTail_dump gs k (by simp only [List.length_cons] at h; omega)
      have hne : (",\n  ".data ++ (dumpFailureChars g ++ dumpTailChars gs)) ≠ "\n]".data := by
        intro hcontra
        rw [show ((",\n  ".data)) = ',' :: '\n' :: ' ' :: ' ' :: [] from rfl,
            show (("\n]".data)) = '\n' :: ']' :: [] from rfl, List.cons_append] at hcontra
        injection hcontra with hh _
        exact absurd hh (by decide)
      show parseTail (k + 1) (",\n  ".data ++ (dumpFailureChars g ++ dumpTailChars gs)) = _
      unfold parseTail
      rw [if_neg hne, stripLit_append]
      simp only [Option.some_bind]
      rw [parseFailureObj_dump g (dumpTailChars gs)]
      simp only [Option.some_bind]
      rw [ih]
      rfl

theorem json_loads_dump : ∀ l : List Failure,
    json_loads_failures (String.mk (dumpFailuresChars l)) = some l
  | [] => rfl
  | f :: fs => by
    unfold json_loads_failures
    have hne : (String.mk (dumpFailuresChars (f :: fs))).data ≠ "[]".data := by
      show ("[\n  ".data ++ (dumpFailureChars f ++ dumpTailChars fs)) ≠ "[]".data
      intro hcontra
      rw [show (("[\n  ".data)) = '[' :: '\n' :: ' ' :: ' ' :: [] from rfl,
          show (("[]".data)) = '[' :: ']' :: [] from rfl, List.cons_append] at hcontra
      injection hcontra with _ h2
      injection h2 with hh _
      exact absurd hh (by decide)
    rw [if_neg hne]
    show ((stripLit "[\n  ".data
        ("[\n  ".data ++ (dumpFailureChars f ++ dumpTailChars fs))).bind fun r =>
      (parseFailureObj r).bind fun fr =>
      (parseTail (fr.2.length + 1) fr.2).map fun fs2 => fr.1 :: fs2) = some (f :: fs)
    rw [stripLit_append]
    simp only [Option.some_bind]
    rw [parseFailureObj_dump f (dumpTailChars fs)]
    simp only [Option.some_bind]
    rw [parseTail_dump fs ((dumpTailChars fs).length + 1)
      (by have := dumpTail_length fs; omega)]
    rfl

/-- C5: rendering any record list to JSON with the formatter and parsing the
JSON text back yields exactly the sorted record list, which is a permutation
of (the same records as) the input list. -/
theorem C5_json_roundtrip (fs : List Failure) :
    (format_test_failures id fs "json").map json_loads_failures =
      .ok (some (sortByTest fs)) ∧ List.Perm (sortByTest fs) fs := by
  constructor
  · show Except.ok (json_loads_failures (String.mk (dumpFailuresChars (sortByTest fs)))) = _
    rw [json_loads_dump (sortByTest fs)]
  · exact sortByTest_perm fs
